import Mathlib

/-!
Verification development for the `agent_system` package: a shallow embedding of
`agent_system/agent_manager.py` (classes `Agent`, `RouterAgent`, `AgentManager`)
together with the interface of `agent_system/tools.py` (`ToolRegistry`).

External collaborators are represented as follows:
* the Ollama chat backend (`ollama.chat`) is a function parameter of type
  `ChatFun := ChatRequest → Except String String` (`.error` models a raised
  transport exception);
* the Python `json` library is modelled by `jsonLoads` (a parser for the JSON
  fragment the system exchanges: strings, integers, booleans, null, arrays and
  objects; floats and `\u` escapes are outside the modelled fragment) and by
  `pyDumps` (a model of `json.dumps(·, indent=2)`);
* tool implementations are functions `JVal → Except String JVal` stored in the
  registry (`.error` models a raised exception).

Raised Python exceptions that escape a function are modelled with
`Except String`, the string carrying the exception class for recognisability.
-/

namespace AgentSys

/-- JSON values as produced by the external `json` library (integer numbers;
floats are outside the modelled fragment). -/
inductive JVal where
  | null : JVal
  | bool : Bool → JVal
  | num : Int → JVal
  | str : String → JVal
  | arr : List JVal → JVal
  | obj : List (String × JVal) → JVal
deriving Repr

/-- Python `str.strip()` whitespace set (ASCII). -/
def isPyWs (c : Char) : Bool :=
  c = ' ' || c = '\t' || c = '\n' || c = '\r' || c = '\x0b' || c = '\x0c'

/-- Drop leading Python whitespace from a character list. -/
def dropLeadingWs : List Char → List Char
  | [] => []
  | c :: cs => if isPyWs c then dropLeadingWs cs else c :: cs

/-- Python `str.strip()`. -/
def pyStrip (s : String) : String :=
  String.mk ((dropLeadingWs (dropLeadingWs s.data).reverse).reverse)

/-- The double-quote character. -/
def qChar : Char := Char.ofNat 34

/-- The single-quote character. -/
def aChar : Char := Char.ofNat 39

/-- The backslash character. -/
def bsChar : Char := Char.ofNat 92

/-- The backtick character. -/
def btChar : Char := Char.ofNat 96

/-- The opening-brace character. -/
def obChar : Char := Char.ofNat 123

/-- The closing-brace character. -/
def cbChar : Char := Char.ofNat 125

/-- JSON inter-token whitespace (RFC 8259, as accepted by `json.loads`). -/
def isJsonWs (c : Char) : Bool :=
  c = ' ' || c = '\t' || c = '\n' || c = '\r'

/-- Skip JSON whitespace. -/
def skipJsonWs : List Char → List Char
  | [] => []
  | c :: cs => if isJsonWs c then skipJsonWs cs else c :: cs

/-- Decode one string-literal escape character (the fragment used by the
system: quote, backslash, slash, `n`, `t`, `r`). -/
def escChar (c : Char) : Option Char :=
  if c = qChar then some qChar
  else if c = bsChar then some bsChar
  else if c = '/' then some '/'
  else if c = 'n' then some '\n'
  else if c = 't' then some '\t'
  else if c = 'r' then some '\r'
  else none

/-- Parse the body of a JSON string literal, the opening quote already
consumed; returns the decoded characters and the remaining input. -/
def parseJStrAux : Nat → List Char → Option (List Char × List Char)
  | 0, _ => none
  | _ + 1, [] => none
  | fuel + 1, c :: cs =>
    if c = qChar then some ([], cs)
    else if c = bsChar then
      match cs with
      | [] => none
      | e :: cs2 =>
        match escChar e with
        | some ec =>
          match parseJStrAux fuel cs2 with
          | some (body, rest) => some (ec :: body, rest)
          | none => none
        | none => none
    else
      match parseJStrAux fuel cs with
      | some (body, rest) => some (c :: body, rest)
      | none => none

/-- Split a leading run of decimal digits. -/
def takeDigits : List Char → List Char × List Char
  | [] => ([], [])
  | c :: cs =>
    if c.isDigit then
      let (ds, rest) := takeDigits cs
      (c :: ds, rest)
    else ([], c :: cs)

/-- Digits to a natural number. -/
def digitsToNat (ds : List Char) : Nat :=
  ds.foldl (fun acc c => 10 * acc + (c.toNat - 48)) 0

/-- Parse a JSON integer (a leading minus sign and digits; a following `.`,
`e` or `E` would start a float, which is outside the modelled fragment). -/
def parseJNum (cs : List Char) : Option (JVal × List Char) :=
  let (neg, cs1) :=
    match cs with
    | c :: rest => if c = '-' then (true, rest) else (false, cs)
    | [] => (false, cs)
  let (ds, rest) := takeDigits cs1
  if ds.isEmpty then none
  else
    match rest with
    | c :: _ => if c = '.' || c = 'e' || c = 'E' then none else
        some (JVal.num (if neg then -(digitsToNat ds : Int) else (digitsToNat ds : Int)), rest)
    | [] => some (JVal.num (if neg then -(digitsToNat ds : Int) else (digitsToNat ds : Int)), rest)

mutual

/-- Parse one JSON value (fuel-indexed recursive-descent model of
`json.loads`). -/
def parseJVal : Nat → List Char → Option (JVal × List Char)
  | 0, _ => none
  | fuel + 1, cs =>
    match skipJsonWs cs with
    | [] => none
    | c :: rest =>
      if c = qChar then
        match parseJStrAux (fuel + 1) rest with
        | some (body, r) => some (JVal.str (String.mk body), r)
        | none => none
      else if c = 't' then
        if ['r', 'u', 'e'].isPrefixOf rest then some (JVal.bool true, rest.drop 3) else none
      else if c = 'f' then
        if ['a', 'l', 's', 'e'].isPrefixOf rest then some (JVal.bool false, rest.drop 4) else none
      else if c = 'n' then
        if ['u', 'l', 'l'].isPrefixOf rest then some (JVal.null, rest.drop 3) else none
      else if c = obChar then
        match skipJsonWs rest with
        | d :: r2 =>
          if d = cbChar then some (JVal.obj [], r2)
          else parseJObj fuel (d :: r2)
        | [] => none
      else if c = '[' then
        match skipJsonWs rest with
        | d :: r2 =>
          if d = ']' then some (JVal.arr [], r2)
          else parseJArr fuel (d :: r2)
        | [] => none
      else
        parseJNum (c :: rest)

/-- Parse the members of a non-empty JSON object, positioned at the first
key; returns the object value after consuming the closing brace. -/
def parseJObj : Nat → List Char → Option (JVal × List Char)
  | 0, _ => none
  | fuel + 1, cs =>
    match skipJsonWs cs with
    | c :: rest =>
      if c = qChar then
        match parseJStrAux (fuel + 1) rest with
        | some (key, r1) =>
          match skipJsonWs r1 with
          | d :: r2 =>
            if d = ':' then
              match parseJVal fuel r2 with
              | some (v, r3) =>
                match skipJsonWs r3 with
                | e :: r4 =>
                  if e = ',' then
                    match parseJObj fuel r4 with
                    | some (JVal.obj kvs, r5) => some (JVal.obj ((String.mk key, v) :: kvs), r5)
                    | _ => none
                  else if e = cbChar then
                    some (JVal.obj [(String.mk key, v)], r4)
                  else none
                | [] => none
              | none => none
            else none
          | [] => none
        | none => none
      else none
    | [] => none

/-- Parse the elements of a non-empty JSON array, positioned at the first
element; returns the array value after consuming the closing bracket. -/
def parseJArr : Nat → List Char → Option (JVal × List Char)
  | 0, _ => none
  | fuel + 1, cs =>
    match parseJVal fuel cs with
    | some (v, r1) =>
      match skipJsonWs r1 with
      | e :: r2 =>
        if e = ',' then
          match parseJArr fuel r2 with
          | some (JVal.arr vs, r3) => some (JVal.arr (v :: vs), r3)
          | _ => none
        else if e = ']' then some (JVal.arr [v], r2)
        else none
      | [] => none
    | none => none

end

/-- Model of Python `json.loads`: parse one JSON value and require only
whitespace to follow; `none` models a raised `json.JSONDecodeError`. -/
def jsonLoads (s : String) : Option JVal :=
  match parseJVal (2 * s.length + 8) s.data with
  | some (v, rest) => if (skipJsonWs rest).isEmpty then some v else none
  | none => none

/-- The literal characters of the opening fence `` ```tool `` of the pattern
in `Agent._extract_tool_calls`. -/
def fenceOpen : List Char := [btChar, btChar, btChar, 't', 'o', 'o', 'l']

/-- The literal characters of the closing part `` \n``` `` of the pattern. -/
def fenceClose : List Char := ['\n', btChar, btChar, btChar]

/-- Non-greedy search for the closing `` \n``` ``: split the input at the
first occurrence, returning the characters before it and the characters after
the whole four-character delimiter. -/
def splitAtClose : List Char → Option (List Char × List Char)
  | [] => none
  | c :: cs =>
    if fenceClose.isPrefixOf (c :: cs) then some ([], (c :: cs).drop 4)
    else
      match splitAtClose cs with
      | some (pre, post) => some (c :: pre, post)
      | none => none

/-- Match the regex tail `\s*\n(.*?)\n``` ` at the start of the input, with
Python backtracking order (greedy `\s*` first, then the shorter runs), as
`re.findall` with `re.DOTALL` does in `Agent._extract_tool_calls`. Returns
the captured group and the input after the whole match. -/
def matchBody : List Char → Option (List Char × List Char)
  | [] => none
  | c :: cs =>
    if isPyWs c then
      match matchBody cs with
      | some r => some r
      | none => if c = '\n' then splitAtClose cs else none
    else none

/-- Scan the text as `re.findall(pattern, text, re.DOTALL)` does: try the
pattern at each position; on a match, emit the captured group and continue
after the match, otherwise advance one character. -/
def findBlocksAux : Nat → List Char → List String
  | 0, _ => []
  | fuel + 1, cs =>
    match cs with
    | [] => []
    | _ :: rest =>
      if fenceOpen.isPrefixOf cs then
        match matchBody (cs.drop 7) with
        | some (cap, post) => String.mk cap :: findBlocksAux fuel post
        | none => findBlocksAux fuel rest
      else findBlocksAux fuel rest

/-- All captures of the pattern `` ```tool\s*\n(.*?)\n``` `` in the text, in
order of occurrence. -/
def findBlocks (text : String) : List String :=
  findBlocksAux (text.length + 1) text.data

/-- Contiguous-sublist test on character lists (Python substring `in`). -/
def listIsInfixOf (needle : List Char) : List Char → Bool
  | [] => needle.isEmpty
  | c :: cs => needle.isPrefixOf (c :: cs) || listIsInfixOf needle cs

/-- Python `"tool" in tool_data` on a parsed JSON value: key membership for a
dict, substring for a string, element membership for a list; for an int, a
bool, a float or `None` Python raises `TypeError` (modelled by `.error`),
which `except json.JSONDecodeError` does not catch. -/
def pyContainsTool : JVal → Except String Bool
  | JVal.obj kvs => Except.ok (kvs.any (fun kv => kv.1 = "tool"))
  | JVal.str s => Except.ok (listIsInfixOf "tool".data s.data)
  | JVal.arr xs =>
    Except.ok (xs.any (fun v => match v with | JVal.str s => s = "tool" | _ => false))
  | _ => Except.error "TypeError: argument of type is not iterable"

/-- The loop body of `Agent._extract_tool_calls`: for each regex capture, try
`json.loads` on the stripped text (a parse error is caught and the capture
skipped), keep the value when `"tool" in tool_data`; a `TypeError` from the
containment test propagates. -/
def extractLoop : List String → Except String (List JVal)
  | [] => Except.ok []
  | m :: ms =>
    match jsonLoads (pyStrip m) with
    | none => extractLoop ms
    | some v =>
      match pyContainsTool v with
      | Except.error e => Except.error e
      | Except.ok true =>
        match extractLoop ms with
        | Except.ok vs => Except.ok (v :: vs)
        | Except.error e => Except.error e
      | Except.ok false => extractLoop ms

/-- `Agent._extract_tool_calls`: scan the response text for `` ```tool ``
fenced blocks and collect the parsed calls. -/
def extract_tool_calls (text : String) : Except String (List JVal) :=
  extractLoop (findBlocks text)

/-- A role-tagged message as sent to `ollama.chat`. -/
structure ChatMessage where
  role : String
  content : String
deriving Repr, DecidableEq

/-- A caller-owned conversation message; `Agent.execute` reads only the
`role` and `content` fields of each entry. -/
structure ConvMessage where
  role : String
  content : String
  agent : Option String := none
  tools_used_names : List String := []
  timestamp : String := ""
deriving Repr, DecidableEq

/-- One invocation of the model backend: the arguments `Agent.execute` and
`RouterAgent.route` pass to `ollama.chat` (temperature as a rational). -/
structure ChatRequest where
  model : String
  messages : List ChatMessage
  temperature : Rat
deriving Repr, DecidableEq

/-- The model backend (`ollama.chat`): request in, response text out;
`.error` models a raised transport exception. -/
def ChatFun : Type := ChatRequest → Except String String

/-- A backend that never raises, given by its response function. -/
def okChat (g : ChatRequest → String) : ChatFun :=
  fun req => Except.ok (g req)

/-- One agent's configuration entry, with the defaults `Agent.__init__`
supplies through `config.get`. -/
structure AgentConfig where
  model : String := "ministral:3b"
  description : String := ""
  temperature : Rat := 7 / 10
  tools : List String := []

/-- A tool implementation: parameter object in, result value out; `.error`
models a raised exception. -/
def ToolFun : Type := JVal → Except String JVal

/-- `ToolRegistry` of `agent_system/tools.py`: a name-keyed table of tools. -/
structure ToolRegistry where
  tools : List (String × ToolFun)

/-- `ToolRegistry.get_tool`: `self.tools.get(tool_name)`. -/
def ToolRegistry.get_tool (r : ToolRegistry) (tool_name : String) : Option ToolFun :=
  r.tools.lookup tool_name

/-- `ToolRegistry.has_tool`: `tool_name in self.tools`. -/
def ToolRegistry.has_tool (r : ToolRegistry) (tool_name : String) : Bool :=
  (r.tools.lookup tool_name).isSome

/-- Python `x in self.tools` where `x` is an arbitrary parsed JSON value:
a string is looked up among the keys, other hashable values (numbers,
booleans, `None`) are unequal to every string key, and an unhashable value
(a list or a dict) makes the dict lookup raise `TypeError`. -/
def ToolRegistry.memJ (r : ToolRegistry) : JVal → Except String Bool
  | JVal.str s => Except.ok (r.has_tool s)
  | JVal.arr _ => Except.error "TypeError: unhashable type"
  | JVal.obj _ => Except.error "TypeError: unhashable type"
  | _ => Except.ok false

/-- The `Agent` class: name, model, description, temperature, allow-listed
tool names and the shared registry. -/
structure Agent where
  name : String
  model : String
  description : String
  temperature : Rat
  tool_names : List String
  tool_registry : ToolRegistry

/-- `Agent.__init__(name, config, tool_registry)`. -/
def Agent.init (name : String) (config : AgentConfig) (tool_registry : ToolRegistry) : Agent :=
  ⟨name, config.model, config.description, config.temperature, config.tools, tool_registry⟩

/-- The uniform failure value `{"success": False, "error": msg}`. -/
def toolFailure (msg : String) : JVal :=
  JVal.obj [("success", JVal.bool false), ("error", JVal.str msg)]

/-- Last binding of a key in a parsed JSON object (Python dict semantics:
`json.loads` lets a later duplicate key win). -/
def jGet (kvs : List (String × JVal)) (k : String) : Option JVal :=
  kvs.reverse.lookup k

/-- Python `str()` of a parsed JSON scalar, as interpolated into the error
messages of `Agent._execute_tool`. The container branches are dead there:
the registry membership test raises `TypeError` on unhashable names before
any message is built. -/
def pyStr : JVal → String
  | JVal.str s => s
  | JVal.num n => toString n
  | JVal.bool true => "True"
  | JVal.bool false => "False"
  | JVal.null => "None"
  | JVal.arr _ => ""
  | JVal.obj _ => ""

/-- A run of spaces. -/
def spaces (n : Nat) : String :=
  String.mk (List.replicate n ' ')

/-- JSON string-literal quoting for `json.dumps` (the escape fragment the
system exchanges: backslash, quote, newline, tab, carriage return). -/
def jsonQuote (s : String) : String :=
  let esc := fun (c : Char) =>
    if c = bsChar then [bsChar, bsChar]
    else if c = qChar then [bsChar, qChar]
    else if c = '\n' then [bsChar, 'n']
    else if c = '\t' then [bsChar, 't']
    else if c = '\r' then [bsChar, 'r']
    else [c]
  String.mk (qChar :: s.data.flatMap esc ++ [qChar])

mutual

/-- Model of `json.dumps(v, indent=2)` at base indentation `ind`. -/
def pyDumpsV (ind : Nat) : JVal → String
  | JVal.null => "null"
  | JVal.bool true => "true"
  | JVal.bool false => "false"
  | JVal.num n => toString n
  | JVal.str s => jsonQuote s
  | JVal.arr [] => "[]"
  | JVal.arr (x :: xs) =>
    "[\n" ++ pyDumpsArr (ind + 2) (x :: xs) ++ "\n" ++ spaces ind ++ "]"
  | JVal.obj [] => "\x7b\x7d"
  | JVal.obj (kv :: kvs) =>
    "\x7b\n" ++ pyDumpsObj (ind + 2) (kv :: kvs) ++ "\n" ++ spaces ind ++ "\x7d"

/-- Array elements of `json.dumps(·, indent=2)`, one per line. -/
def pyDumpsArr (ind : Nat) : List JVal → String
  | [] => ""
  | [x] => spaces ind ++ pyDumpsV ind x
  | x :: y :: xs =>
    spaces ind ++ pyDumpsV ind x ++ ",\n" ++ pyDumpsArr ind (y :: xs)

/-- Object members of `json.dumps(·, indent=2)`, one per line. -/
def pyDumpsObj (ind : Nat) : List (String × JVal) → String
  | [] => ""
  | [(k, v)] => spaces ind ++ jsonQuote k ++ ": " ++ pyDumpsV ind v
  | (k, v) :: kv2 :: kvs =>
    spaces ind ++ jsonQuote k ++ ": " ++ pyDumpsV ind v ++ ",\n" ++ pyDumpsObj ind (kv2 :: kvs)

end

/-- Model of `json.dumps(v, indent=2)`. -/
def pyDumps (v : JVal) : String :=
  pyDumpsV 0 v

/-- `Agent._execute_tool`: look the call's tool name up in the registry and
the agent's allow-list, then invoke the tool, converting a raised exception
into `{"success": False, "error": str(e)}`. A call that is not a dict makes
`tool_call.get` raise `AttributeError`, which nothing catches. -/
def Agent.execute_tool (ag : Agent) (tool_call : JVal) : Except String JVal :=
  match tool_call with
  | JVal.obj kvs =>
    let tool_name := (jGet kvs "tool").getD JVal.null
    let params := (jGet kvs "params").getD (JVal.obj [])
    match ag.tool_registry.memJ tool_name with
    | Except.error e => Except.error e
    | Except.ok false =>
      Except.ok (toolFailure ("Tool " ++ pyStr tool_name ++ " not found"))
    | Except.ok true =>
      match tool_name with
      | JVal.str s =>
        if ag.tool_names.contains s then
          match ag.tool_registry.get_tool s with
          | some tool_func =>
            match tool_func params with
            | Except.ok result => Except.ok result
            | Except.error e => Except.ok (toolFailure e)
          | none =>
            Except.ok (toolFailure ("Tool " ++ s ++ " not found"))
        else
          Except.ok (toolFailure ("Tool " ++ s ++ " not available to this agent"))
      | _ => Except.ok (toolFailure "")
  | _ => Except.error "AttributeError: object has no attribute get"

/-- The `"tool"` field a successfully processed call contributes to
`tools_used` (present on every call the loop reaches). -/
def callName (tool_call : JVal) : JVal :=
  match tool_call with
  | JVal.obj kvs => (jGet kvs "tool").getD JVal.null
  | _ => JVal.null

/-- The tool-call loop of `Agent.execute`: for each call in order, run
`_execute_tool`, then append `tool_call["tool"]` to `tools_used` and the
result to `tool_results`; a raised exception aborts the loop.
Returns `(tools_used, tool_results)`. -/
def Agent.run_tool_calls (ag : Agent) : List JVal → Except String (List JVal × List JVal)
  | [] => Except.ok ([], [])
  | tool_call :: rest =>
    match ag.execute_tool tool_call with
    | Except.error e => Except.error e
    | Except.ok result =>
      match tool_call with
      | JVal.obj kvs =>
        match jGet kvs "tool" with
        | some tn =>
          match ag.run_tool_calls rest with
          | Except.ok (used, results) => Except.ok (tn :: used, result :: results)
          | Except.error e => Except.error e
        | none => Except.error "KeyError: tool"
      | _ => Except.error "TypeError: not subscriptable"

/-- `Agent._build_system_prompt`. -/
def Agent.build_system_prompt (ag : Agent) : String :=
  let p := "You are a specialized AI assistant for: " ++ ag.description ++ "\n\n"
  let p :=
    if ag.tool_names.isEmpty then p
    else
      p ++ "You have access to the following tools:\n"
        ++ ag.tool_names.foldl (fun acc tool_name => acc ++ "- " ++ tool_name ++ "\n") ""
        ++ "\nTo use a tool, output a JSON block in this format:\n"
        ++ "```tool\n"
        ++ "\x7b\"tool\": \"tool_name\", \"params\": \x7b\"param1\": \"value1\"\x7d\x7d\n"
        ++ "```\n\n"
        ++ "You can call multiple tools by outputting multiple tool blocks.\n"
        ++ "After using tools, explain the results to the user in natural language.\n\n"
  p ++ "Be helpful, concise, and accurate in your responses."

/-- `Agent._build_synthesis_prompt(original_prompt, tool_results)`. -/
def build_synthesis_prompt (original_prompt : String) (tool_results : List JVal) : String :=
  let p := "Based on the tool results below, provide a natural language response to the user's request.\n\n"
  let p := p ++ "User request: " ++ original_prompt ++ "\n\n" ++ "Tool results:\n"
  let p := tool_results.enum.foldl
    (fun acc ir => acc ++ "\nTool " ++ toString (ir.1 + 1) ++ ": " ++ pyDumps ir.2 ++ "\n") p
  p ++ "\nProvide a clear, helpful response based on these results:"

/-- The message-list assembly of `Agent.execute`: system prompt, then the
last 10 history messages (each reduced to its `role` and `content`), then
the current prompt as the final user turn. -/
def Agent.build_messages (ag : Agent) (prompt : String)
    (conversation_history : Option (List ConvMessage)) : List ChatMessage :=
  let messages : List ChatMessage := [⟨"system", ag.build_system_prompt⟩]
  let messages := messages ++
    (match conversation_history with
     | none => []
     | some h =>
       if h.isEmpty then []
       else (h.drop (h.length - 10)).map (fun msg => ⟨msg.role, msg.content⟩))
  messages ++ [⟨"user", prompt⟩]

/-- The first (primary) request `Agent.execute` sends to `ollama.chat`. -/
def Agent.firstRequest (ag : Agent) (prompt : String)
    (conversation_history : Option (List ConvMessage)) : ChatRequest :=
  ⟨ag.model, ag.build_messages prompt conversation_history, ag.temperature⟩

/-- The synthesis request: the full first-pass input, plus the primary
response as an assistant turn, plus the synthesis instruction turn. -/
def Agent.synthRequest (ag : Agent) (prompt : String)
    (conversation_history : Option (List ConvMessage))
    (assistant_message : String) (tool_results : List JVal) : ChatRequest :=
  ⟨ag.model,
   ag.build_messages prompt conversation_history ++
     [⟨"assistant", assistant_message⟩,
      ⟨"user", build_synthesis_prompt prompt tool_results⟩],
   ag.temperature⟩

/-- The result dict of `Agent.execute`. -/
structure ExecResult where
  response : String
  tools_used : List JVal
deriving Repr

/-- `Agent.execute(prompt, conversation_history)`. The second component is
the instrumented log of the requests passed to `ollama.chat`, in order; a
`.error` result is an exception escaping the method. -/
def Agent.execute (chat : ChatFun) (ag : Agent) (prompt : String)
    (conversation_history : Option (List ConvMessage)) :
    Except String ExecResult × List ChatRequest :=
  let req1 := ag.firstRequest prompt conversation_history
  match chat req1 with
  | Except.error e => (Except.error e, [req1])
  | Except.ok assistant_message =>
    match extract_tool_calls assistant_message with
    | Except.error e => (Except.error e, [req1])
    | Except.ok tool_calls =>
      if tool_calls.isEmpty then
        (Except.ok ⟨assistant_message, []⟩, [req1])
      else
        match ag.run_tool_calls tool_calls with
        | Except.error e => (Except.error e, [req1])
        | Except.ok (tools_used, tool_results) =>
          let req2 := ag.synthRequest prompt conversation_history assistant_message tool_results
          match chat req2 with
          | Except.error e => (Except.error e, [req1, req2])
          | Except.ok synthesis_text => (Except.ok ⟨synthesis_text, tools_used⟩, [req1, req2])

/-- Router configuration entry, with the defaults `RouterAgent.__init__`
supplies through `config.get`. -/
structure RouterConfig where
  model : String := "gemma2:2b"
  temperature : Rat := 3 / 10

/-- The `RouterAgent` class. -/
structure RouterAgent where
  model : String
  temperature : Rat
  agent_names : List String
  agent_descriptions : List (String × String)
deriving Repr, DecidableEq

/-- `RouterAgent.__init__(config, agent_names)`. -/
def RouterAgent.init (config : RouterConfig) (agent_names : List String) : RouterAgent :=
  ⟨config.model, config.temperature, agent_names, []⟩

/-- `RouterAgent.set_agent_descriptions`. -/
def RouterAgent.set_agent_descriptions (r : RouterAgent)
    (descriptions : List (String × String)) : RouterAgent :=
  ⟨r.model, r.temperature, r.agent_names, descriptions⟩

/-- The message list `RouterAgent.route` sends to the model: the routing
system prompt enumerating the agent descriptions, then the request turn.
It does not depend on the conversation history. -/
def RouterAgent.build_route_messages (r : RouterAgent) (query : String) : List ChatMessage :=
  let system_prompt :=
    "You are a routing assistant. Your job is to determine which specialized agent should handle a user's request.\n\n"
      ++ "Available agents:\n"
  let system_prompt := r.agent_descriptions.foldl
    (fun acc nd => acc ++ "- " ++ nd.1 ++ ": " ++ nd.2 ++ "\n") system_prompt
  let system_prompt := system_prompt
    ++ "\nAnalyze the user's request and respond with ONLY the agent name that should handle it.\n"
    ++ "Respond with just the agent name, nothing else.\n"
    ++ "If no specialized agent fits, respond with 'general'."
  [⟨"system", system_prompt⟩,
   ⟨"user", "Which agent should handle this request?\n\nRequest: " ++ query⟩]

/-- The request `RouterAgent.route` passes to `ollama.chat`. -/
def RouterAgent.routeRequest (r : RouterAgent) (query : String) : ChatRequest :=
  ⟨r.model, r.build_route_messages query, r.temperature⟩

/-- Python `str.lower()` (ASCII fragment). -/
def pyLower (s : String) : String :=
  String.mk (s.data.map Char.toLower)

/-- Python `str.replace(c, "")` for a single character: remove every
occurrence. -/
def removeAll (c : Char) (s : String) : String :=
  String.mk (s.data.filter (fun d => d ≠ c))

/-- The response clean-up of `RouterAgent.route`:
`content.strip().lower()` then `.replace('"', "").replace("'", "").replace(".", "")`. -/
def routeCleanup (content : String) : String :=
  removeAll '.' (removeAll aChar (removeAll qChar (pyLower (pyStrip content))))

/-- `RouterAgent.route(query, conversation_history)`: one model call, then
clean-up and validation against the known agent names; any exception inside
the `try` block (in particular a raised transport error) falls back to
`"general"`. The `conversation_history` parameter is unused by the method
body. -/
def RouterAgent.route (chat : ChatFun) (r : RouterAgent) (query : String)
    (conversation_history : Option (List ConvMessage)) : String :=
  match chat (r.routeRequest query) with
  | Except.error _ => "general"
  | Except.ok content =>
    let selected_agent := routeCleanup content
    if r.agent_names.contains selected_agent then selected_agent
    else "general"

/-- The configuration structure consumed by `AgentManager`:
`{agents: {name: {...}}, router: {...}}` (insertion-ordered). -/
structure SystemConfig where
  agents : List (String × AgentConfig) := []
  router : RouterConfig := {}

/-- The `AgentManager` class. -/
structure AgentManager where
  config : SystemConfig
  tool_registry : ToolRegistry
  agents : List (String × Agent)
  router : RouterAgent

/-- `AgentManager.__init__` followed by `_initialize_agents`: build one
`Agent` per configuration entry, then the router seeded with the agent
names, then hand the router the description map. -/
def AgentManager.init (config : SystemConfig) (tool_registry : ToolRegistry) : AgentManager :=
  let agents := config.agents.map (fun nc => (nc.1, Agent.init nc.1 nc.2 tool_registry))
  let router := RouterAgent.init config.router (agents.map (fun na => na.1))
  let descriptions := agents.map (fun na => (na.1, na.2.description))
  let router := router.set_agent_descriptions descriptions
  ⟨config, tool_registry, agents, router⟩

/-- The result dict of the orchestrator operations. -/
structure QueryResult where
  response : String
  agent_used : String
  tools_used : List JVal
deriving Repr

/-- `AgentManager.execute_with_agent(agent_name, query, conversation_history)`:
look the agent up (an unknown name yields the error-shaped result without
any model invocation), otherwise delegate to `Agent.execute` and re-wrap its
result. The second component logs the requests passed to `ollama.chat`. -/
def AgentManager.execute_with_agent (chat : ChatFun) (m : AgentManager)
    (agent_name : String) (query : String)
    (conversation_history : Option (List ConvMessage)) :
    Except String QueryResult × List ChatRequest :=
  match m.agents.lookup agent_name with
  | none =>
    (Except.ok ⟨"Error: Agent '" ++ agent_name ++ "' not found", "error", []⟩, [])
  | some agent =>
    match agent.execute chat query conversation_history with
    | (Except.ok result, calls) =>
      (Except.ok ⟨result.response, agent_name, result.tools_used⟩, calls)
    | (Except.error e, calls) => (Except.error e, calls)

/-- `AgentManager.process_query(query, conversation_history)`: route, then
execute with the selected agent. The request log starts with the router's
model invocation. -/
def AgentManager.process_query (chat : ChatFun) (m : AgentManager) (query : String)
    (conversation_history : Option (List ConvMessage)) :
    Except String QueryResult × List ChatRequest :=
  let selected_agent_name := m.router.route chat query conversation_history
  let (res, calls) := m.execute_with_agent chat selected_agent_name query conversation_history
  (res, m.router.routeRequest query :: calls)

/-- One entry of `AgentManager.get_agent_list`. -/
structure AgentInfo where
  description : String
  model : String
  tools : List String
deriving Repr, DecidableEq

/-- `AgentManager.get_agent_list`: the introspection mapping, paired with
the (unchanged) manager state to make the absence of mutation explicit. -/
def AgentManager.get_agent_list (m : AgentManager) :
    List (String × AgentInfo) × AgentManager :=
  (m.agents.map (fun na => (na.1, ⟨na.2.description, na.2.model, na.2.tool_names⟩)), m)

/-! Claim-side definitions, following the wording of the spec sentences
under examination; each is to be compared with the source-derived function
of the same operation. -/

/-- Spec-side for C4: extraction as the claim words it ("the sequence of
parsed JSON objects from fenced blocks tagged `tool` ... a block whose body
fails to parse as JSON, or whose parsed object lacks a `tool` key, is
omitted ... without raising any error"). -/
def claimExtractC4 (text : String) : List JVal :=
  (findBlocks text).filterMap (fun m =>
    match jsonLoads (pyStrip m) with
    | some (JVal.obj kvs) =>
      if kvs.any (fun kv => kv.1 = "tool") then some (JVal.obj kvs) else none
    | _ => none)

/-- Whether a regex capture parses to a JSON object or fails to parse (the
cases C4 describes); a capture parsing to a non-object value is the case it
does not cover. -/
def objOrMalformed (m : String) : Bool :=
  match jsonLoads (pyStrip m) with
  | some (JVal.obj _) => true
  | some _ => false
  | none => true

/-- Spec-side for C5: strip the surrounding quote and period characters of
the lower-cased response (the claim's normalization, as opposed to the
remove-all-occurrences normalization of the source). -/
def claimStripChars (s : String) : String :=
  let isStripped := fun (c : Char) => c = qChar || c = aChar || c = '.'
  let dropFront := fun (cs : List Char) => cs.dropWhile isStripped
  String.mk ((dropFront (dropFront s.data).reverse).reverse)

/-- Spec-side for C5: the routing decision as the claim words it. -/
def claimRouteC5 (chat : ChatFun) (r : RouterAgent) (query : String) : String :=
  match chat (r.routeRequest query) with
  | Except.error _ => "general"
  | Except.ok content =>
    let selected := claimStripChars (pyLower content)
    if r.agent_names.contains selected then selected else "general"

/-- A tool call the loop body of `Agent.execute` processes without raising:
a JSON object whose `"tool"` entry is present and hashable. -/
def wellFormedCall : JVal → Bool
  | JVal.obj kvs =>
    match jGet kvs "tool" with
    | some (JVal.arr _) => false
    | some (JVal.obj _) => false
    | some _ => true
    | none => false
  | _ => false

/-- The result value `Agent._execute_tool` returns on a call it processes
without raising (the `.ok` payload of `execute_tool`). -/
def execute_tool_wf (ag : Agent) (tool_call : JVal) : JVal :=
  match ag.execute_tool tool_call with
  | Except.ok r => r
  | Except.error _ => JVal.null

/-! Concrete fixtures used by counterexamples and witnesses. -/

/-- A registry with a writing tool, a raising tool and one tool the demo
agent is not allowed to call. -/
def demoRegistry : ToolRegistry :=
  ⟨[("write_file", fun p => Except.ok (JVal.obj [("success", JVal.bool true), ("path", p)])),
    ("boom", fun _ => Except.error "disk full"),
    ("web_search", fun _ => Except.ok JVal.null)]⟩

/-- A file-manager agent allowed to call `write_file` and `boom`. -/
def demoAgent : Agent :=
  Agent.init "file_manager" ⟨"m1", "File operations", 3 / 10, ["write_file", "boom"]⟩ demoRegistry

/-- A tool-less agent over an empty registry. -/
def agPlain : Agent :=
  Agent.init "general" ⟨"ministral:3b", "General conversation", 7 / 10, []⟩ ⟨[]⟩

/-- An extracted call naming an unregistered tool. -/
def callUnknown : JVal := JVal.obj [("tool", JVal.str "delete_file")]

/-- An extracted call naming a registered tool absent from the demo agent's
allow-list. -/
def callForbidden : JVal := JVal.obj [("tool", JVal.str "web_search")]

/-- An extracted call whose tool implementation raises. -/
def callBoom : JVal := JVal.obj [("tool", JVal.str "boom")]

/-- A well-formed write call. -/
def callGood : JVal :=
  JVal.obj [("tool", JVal.str "write_file"),
            ("params", JVal.obj [("file_path", JVal.str "a.txt")])]

/-- A primary response containing the one well-formed write call. -/
def demoPrimaryText : String :=
  "I will write.\n```tool\n\x7b\"tool\": \"write_file\", \"params\": \x7b\"file_path\": \"a.txt\"\x7d\x7d\n```\ndone"

/-- A deterministic backend: the primary request (two messages) yields
`demoPrimaryText`, any other request yields a fixed synthesis text. -/
def demoBackend : ChatRequest → String := fun req =>
  if req.messages.length = 2 then demoPrimaryText else "SYNTH"

/-- Model output with one well-formed and one malformed `` ```tool `` block. -/
def goodBadText : String :=
  "before\n```tool\n\x7b\"tool\": \"write_file\", \"params\": \x7b\"file_path\": \"a.txt\"\x7d\x7d\n```\nmiddle\n```tool\n\x7b\"tool\": \"broken\"\n```\nend"

/-- Model output with two well-formed blocks, `a` before `b`. -/
def orderedText : String :=
  "```tool\n\x7b\"tool\": \"a\"\x7d\n```\ntext\n```tool\n\x7b\"tool\": \"b\"\x7d\n```"

/-- A block whose body is the valid JSON value `5` (not an object). -/
def numBlockText : String := "```tool\n5\n```"

/-- A block whose body is the valid JSON string `"tool"` (not an object). -/
def strBlockText : String := "```tool\n\"tool\"\n```"

/-- A backend that always emits `strBlockText`. -/
def strBlockBackend : ChatFun := okChat (fun _ => strBlockText)

/-- A backend answering every request with a multi-word refusal. -/
def chatUnsure : ChatFun := okChat (fun _ => "I'm not sure")

/-- A configuration with a single agent and no `"general"` entry. -/
def cfgNoGeneral : SystemConfig :=
  ⟨[("calendar", ⟨"ministral:3b", "Calendar management", 3 / 10, []⟩)], ⟨"gemma2:2b", 3 / 10⟩⟩

/-- The manager built from `cfgNoGeneral`. -/
def mgrNoGeneral : AgentManager := AgentManager.init cfgNoGeneral ⟨[]⟩

/-- A configuration that does include a `"general"` agent. -/
def cfgWithGeneral : SystemConfig :=
  ⟨[("general", ⟨"ministral:3b", "General conversation and questions", 7 / 10, []⟩),
    ("calendar", ⟨"ministral:3b", "Calendar management", 3 / 10, []⟩)], ⟨"gemma2:2b", 3 / 10⟩⟩

/-- The manager built from `cfgWithGeneral`. -/
def mgrWithGeneral : AgentManager := AgentManager.init cfgWithGeneral ⟨[]⟩

/-- A router whose agent set contains a name with an interior period. -/
def dotRouter : RouterAgent :=
  ⟨"gemma2:2b", 3 / 10, ["file.manager", "general"], [("file.manager", "files"), ("general", "chat")]⟩

/-- A backend answering with exactly the dotted agent name. -/
def chatDotted : ChatFun := okChat (fun _ => "file.manager")

/-- The router of the spec's end-to-end scenario 3. -/
def calRouter : RouterAgent :=
  ⟨"gemma2:2b", 3 / 10, ["calendar", "general"],
   [("calendar", "Calendar management"), ("general", "General conversation")]⟩

/-- Fifteen history messages `m0 ... m14`. -/
def hist15 : List ConvMessage :=
  (List.range 15).map (fun i => ⟨"user", "m" ++ toString i, none, [], ""⟩)

/-! Helper lemmas. -/

/-- A key occurring among the first components of an association list is
found by `List.lookup`. -/
theorem lookup_isSome_of_mem_keys {β : Type} (l : List (String × β)) (a : String)
    (h : a ∈ l.map Prod.fst) : (l.lookup a).isSome = true := by
  induction l with
  | nil => simp at h
  | cons kv t ih =>
    obtain ⟨k, v⟩ := kv
    by_cases hk : a = k
    · subst hk
      simp [List.lookup]
    · rw [List.map_cons] at h
      rcases List.mem_cons.mp h with h1 | h1
      · exact absurd h1 hk
      · simpa [List.lookup, beq_eq_false_iff_ne.mpr hk] using ih h1

/-- `RouterAgent.route` answers with a known agent name or with the literal
string `"general"`. -/
theorem route_mem_or_general (chat : ChatFun) (r : RouterAgent) (q : String)
    (h : Option (List ConvMessage)) :
    r.route chat q h ∈ r.agent_names ∨ r.route chat q h = "general" := by
  unfold RouterAgent.route
  cases chat (r.routeRequest q) with
  | error e => right; rfl
  | ok content =>
    by_cases hb : r.agent_names.contains (routeCleanup content)
    · left
      dsimp only
      rw [if_pos hb]
      exact List.mem_of_elem_eq_true hb
    · right
      dsimp only
      rw [if_neg hb]

/-- In a freshly built manager, the router's agent-name list is exactly the
key list of the agent table. -/
theorem init_router_names (config : SystemConfig) (reg : ToolRegistry) :
    (AgentManager.init config reg).router.agent_names
      = (AgentManager.init config reg).agents.map Prod.fst := rfl

/-- On a well-formed call, `Agent._execute_tool` returns normally (no
raised exception). -/
theorem execute_tool_ok_of_wf (ag : Agent) (c : JVal) (h : wellFormedCall c = true) :
    ∃ r, ag.execute_tool c = Except.ok r := by
  cases c with
  | null => simp [wellFormedCall] at h
  | bool b => simp [wellFormedCall] at h
  | num n => simp [wellFormedCall] at h
  | str s => simp [wellFormedCall] at h
  | arr xs => simp [wellFormedCall] at h
  | obj kvs =>
    have h' := h
    simp only [wellFormedCall] at h'
    simp only [Agent.execute_tool]
    rcases hg : jGet kvs "tool" with _ | tn
    · rw [hg] at h'
      exact Bool.noConfusion h'
    · rw [hg] at h'
      simp only [Option.getD_some]
      cases tn with
      | arr xs => exact Bool.noConfusion h'
      | obj o => exact Bool.noConfusion h'
      | null => exact ⟨_, rfl⟩
      | bool b => exact ⟨_, rfl⟩
      | num n => exact ⟨_, rfl⟩
      | str s =>
        simp only [ToolRegistry.memJ]
        rcases hb : ag.tool_registry.has_tool s with _ | _
        · exact ⟨_, rfl⟩
        · dsimp only
          by_cases hc : ag.tool_names.contains s
          · rw [if_pos hc]
            rcases hgt : ag.tool_registry.get_tool s with _ | f
            · exact ⟨_, rfl⟩
            · dsimp only
              rcases hf : f ((jGet kvs "params").getD (JVal.obj [])) with e | r
              · exact ⟨_, rfl⟩
              · exact ⟨_, rfl⟩
          · rw [if_neg hc]
            exact ⟨_, rfl⟩

/-- On a well-formed call, `Agent._execute_tool` returns exactly the value
`execute_tool_wf` computes. -/
theorem execute_tool_eq_wf (ag : Agent) (c : JVal) (h : wellFormedCall c = true) :
    ag.execute_tool c = Except.ok (execute_tool_wf ag c) := by
  obtain ⟨r, hr⟩ := execute_tool_ok_of_wf ag c h
  simp [execute_tool_wf, hr]

/-- A well-formed call is an object with a `"tool"` entry. -/
theorem wf_obj_shape (c : JVal) (h : wellFormedCall c = true) :
    ∃ kvs tn, c = JVal.obj kvs ∧ jGet kvs "tool" = some tn := by
  cases c with
  | obj kvs =>
    rcases hg : jGet kvs "tool" with _ | tn
    · simp [wellFormedCall, hg] at h
    · exact ⟨kvs, tn, rfl, hg⟩
  | null => simp [wellFormedCall] at h
  | bool b => simp [wellFormedCall] at h
  | num n => simp [wellFormedCall] at h
  | str s => simp [wellFormedCall] at h
  | arr xs => simp [wellFormedCall] at h

/-- The tool-call loop of `Agent.execute` on a list of well-formed calls:
it never raises, `tools_used` is the list of the calls' `"tool"` fields in
order, and `tool_results` is the per-call `_execute_tool` value in order. -/
theorem run_tool_calls_wf (ag : Agent) (calls : List JVal)
    (h : ∀ c ∈ calls, wellFormedCall c = true) :
    ag.run_tool_calls calls
      = Except.ok (calls.map callName, calls.map (execute_tool_wf ag)) := by
  induction calls with
  | nil => rfl
  | cons c rest ih =>
    have hc := h c (List.mem_cons_self c rest)
    have hrest := fun x hx => h x (List.mem_cons_of_mem c hx)
    obtain ⟨kvs, tn, hck, htn⟩ := wf_obj_shape c hc
    subst hck
    simp only [Agent.run_tool_calls]
    rw [execute_tool_eq_wf ag _ hc, htn, ih hrest]
    simp [callName, htn]

/-- Every branch of `Agent.execute` logs the primary request first. -/
theorem execute_calls_head (chat : ChatFun) (ag : Agent) (prompt : String)
    (hist : Option (List ConvMessage)) :
    (ag.execute chat prompt hist).2.head? = some (ag.firstRequest prompt hist) := by
  simp only [Agent.execute]
  repeat' split
  all_goals rfl

/-- `Agent.execute` behaviour when no tool calls are extracted: one model
invocation, primary text returned unchanged, no tools used. -/
theorem execute_ok_no_tools (g : ChatRequest → String) (ag : Agent) (prompt : String)
    (hist : Option (List ConvMessage))
    (h : extract_tool_calls (g (ag.firstRequest prompt hist)) = Except.ok []) :
    ag.execute (okChat g) prompt hist
      = (Except.ok ⟨g (ag.firstRequest prompt hist), []⟩, [ag.firstRequest prompt hist]) := by
  simp only [Agent.execute, okChat]
  rw [h]
  rfl

/-- `Agent.execute` behaviour when at least one well-formed tool call is
extracted: two model invocations, the synthesis request embeds the primary
text and the ordered tool results, its text is returned, and `tools_used`
lists the calls' `"tool"` fields in order. -/
theorem execute_ok_with_tools (g : ChatRequest → String) (ag : Agent) (prompt : String)
    (hist : Option (List ConvMessage)) (calls : List JVal)
    (hx : extract_tool_calls (g (ag.firstRequest prompt hist)) = Except.ok calls)
    (hne : calls ≠ [])
    (hwf : ∀ c ∈ calls, wellFormedCall c = true) :
    ag.execute (okChat g) prompt hist
      = (Except.ok ⟨g (ag.synthRequest prompt hist (g (ag.firstRequest prompt hist))
                        (calls.map (execute_tool_wf ag))), calls.map callName⟩,
         [ag.firstRequest prompt hist,
          ag.synthRequest prompt hist (g (ag.firstRequest prompt hist))
            (calls.map (execute_tool_wf ag))]) := by
  have hie : calls.isEmpty = false := by
    cases calls with
    | nil => exact absurd rfl hne
    | cons a t => rfl
  simp only [Agent.execute, okChat]
  rw [hx]
  simp only [hie, Bool.false_eq_true, if_false]
  rw [run_tool_calls_wf ag calls hwf]

/-! Theorems for the claims. -/

/-- Claim C9: `AgentManager.get_agent_list` is pure and idempotent: it
leaves the manager unchanged, and a second call yields the identical
mapping. -/
theorem claim_C9 : ∀ m : AgentManager,
    (m.get_agent_list).2 = m
    ∧ ((m.get_agent_list).2.get_agent_list).1 = (m.get_agent_list).1
    ∧ ((m.get_agent_list).2.get_agent_list).2 = m :=
  fun _ => ⟨rfl, rfl, rfl⟩

/-- Claim C10: the output of `RouterAgent.route` is independent of the
`conversation_history` argument: any two history values (including `none`)
yield the same routing decision, because the method never reads it. -/
theorem claim_C10 :
    ∀ (chat : ChatFun) (r : RouterAgent) (q : String)
      (h1 h2 : Option (List ConvMessage)),
      r.route chat q h1 = r.route chat q h2
      ∧ r.route chat q h1 = r.route chat q none :=
  fun _ _ _ _ _ => ⟨rfl, rfl⟩

/-- Claim C7: `AgentManager.execute_with_agent` returns the error-shaped
result (`agent_used = "error"`, no tools, no model invocation) for an
unknown agent name; for a known name it delegates to that agent's
`execute`; and its behaviour never depends on the router component. -/
theorem claim_C7 :
    (∀ (chat : ChatFun) (m : AgentManager) (name query : String)
       (hist : Option (List ConvMessage)),
       m.agents.lookup name = none →
       m.execute_with_agent chat name query hist
         = (Except.ok ⟨"Error: Agent '" ++ name ++ "' not found", "error", []⟩,
            ([] : List ChatRequest)))
    ∧ (∀ (chat : ChatFun) (m : AgentManager) (name : String) (ag : Agent)
         (query : String) (hist : Option (List ConvMessage)),
         m.agents.lookup name = some ag →
         m.execute_with_agent chat name query hist
           = (match ag.execute chat query hist with
              | (Except.ok r, calls) => (Except.ok ⟨r.response, name, r.tools_used⟩, calls)
              | (Except.error e, calls) => (Except.error e, calls)))
    ∧ (∀ (chat : ChatFun) (m : AgentManager) (router2 : RouterAgent)
         (name query : String) (hist : Option (List ConvMessage)),
         (AgentManager.mk m.config m.tool_registry m.agents router2).execute_with_agent
             chat name query hist
           = m.execute_with_agent chat name query hist) := by
  refine ⟨?_, ?_, ?_⟩
  · intro chat m name query hist hnone
    unfold AgentManager.execute_with_agent
    rw [hnone]
  · intro chat m name ag query hist hsome
    unfold AgentManager.execute_with_agent
    rw [hsome]
  · intro chat m router2 name query hist
    rfl

/-- Witness for C7 at a concrete manager: the name `"missing"` is unknown,
so the call returns the error-shaped result and performs no model
invocation. -/
theorem claim_C7_witness :
    mgrNoGeneral.execute_with_agent chatUnsure "missing" "hi" none
      = (Except.ok ⟨"Error: Agent 'missing' not found", "error", []⟩,
         ([] : List ChatRequest)) :=
  claim_C7.1 chatUnsure mgrNoGeneral "missing" "hi" none rfl

/-- Counterexample for C1: with a configuration lacking a `"general"`
agent, the router still falls back to the name `"general"`, which is not a
key of the agent set, and `process_query` consequently produces the
error-shaped result. -/
theorem claim_C1_counterexample :
    mgrNoGeneral.router.route chatUnsure "hello" none = "general"
    ∧ mgrNoGeneral.agents.lookup "general" = none
    ∧ (mgrNoGeneral.process_query chatUnsure "hello" none).1
        = Except.ok ⟨"Error: Agent 'general' not found", "error", []⟩ :=
  ⟨rfl, rfl, rfl⟩

/-- Claim C1 as amended: the routing decision is always either a key of the
configured agent set or the literal fallback string `"general"`; whenever
the configuration does include an agent named `"general"`, the decision is
always a key of the agent set. -/
theorem claim_C1_amended :
    ∀ (config : SystemConfig) (reg : ToolRegistry) (chat : ChatFun) (q : String)
      (hist : Option (List ConvMessage)),
      ((AgentManager.init config reg).router.route chat q hist
          ∈ (AgentManager.init config reg).agents.map Prod.fst
        ∨ (AgentManager.init config reg).router.route chat q hist = "general")
      ∧ ("general" ∈ (AgentManager.init config reg).agents.map Prod.fst →
          ((AgentManager.init config reg).agents.lookup
              ((AgentManager.init config reg).router.route chat q hist)).isSome
            = true) := by
  intro config reg chat q hist
  have hroute := route_mem_or_general chat (AgentManager.init config reg).router q hist
  rw [init_router_names] at hroute
  refine ⟨hroute, ?_⟩
  intro hgen
  rcases hroute with hmem | hfall
  · exact lookup_isSome_of_mem_keys _ _ hmem
  · rw [hfall]
    exact lookup_isSome_of_mem_keys _ _ hgen

/-- Witness for the amended C1: a configuration containing `"general"`
always resolves to a valid key, here under a multi-word model answer. -/
theorem claim_C1_witness :
    (mgrWithGeneral.agents.lookup
        (mgrWithGeneral.router.route chatUnsure "hello" none)).isSome = true :=
  (claim_C1_amended cfgWithGeneral ⟨[]⟩ chatUnsure "hello" none).2 (by decide)

/-- Counterexample for C5: the source removes every occurrence of quote and
period characters (`str.replace`), not only surrounding ones; on a
configured agent name with an interior period the two disagree: the model
answers exactly the known name `"file.manager"`, the claim's normalization
accepts it, but `RouterAgent.route` falls back to `"general"`. -/
theorem claim_C5_counterexample :
    dotRouter.route chatDotted "q" none = "general"
    ∧ claimRouteC5 chatDotted dotRouter "q" = "file.manager"
    ∧ dotRouter.agent_names.contains "file.manager" = true
    ∧ (dotRouter.route chatDotted "q" none == claimRouteC5 chatDotted dotRouter "q")
        = false :=
  ⟨rfl, rfl, rfl, by decide⟩

/-- Claim C5 as amended: `RouterAgent.route` strips surrounding whitespace,
lower-cases, then removes every occurrence of double-quote, single-quote
and period characters (`routeCleanup`), accepts the result only on an exact
match with a known agent name, and otherwise — including on a raised model
error — resolves to `"general"`; the spec's two scenario examples hold. -/
theorem claim_C5_amended :
    (∀ (chat : ChatFun) (r : RouterAgent) (q : String)
       (hist : Option (List ConvMessage)) (content : String),
       chat (r.routeRequest q) = Except.ok content →
       r.route chat q hist
         = (if r.agent_names.contains (routeCleanup content) then routeCleanup content
            else "general"))
    ∧ (∀ (chat : ChatFun) (r : RouterAgent) (q : String)
         (hist : Option (List ConvMessage)) (e : String),
         chat (r.routeRequest q) = Except.error e →
         r.route chat q hist = "general")
    ∧ calRouter.route (okChat (fun _ => "Calendar.")) "q" none = "calendar"
    ∧ calRouter.route chatUnsure "q" none = "general" := by
  refine ⟨?_, ?_, rfl, rfl⟩
  · intro chat r q hist content hok
    unfold RouterAgent.route
    rw [hok]
  · intro chat r q hist e herr
    unfold RouterAgent.route
    rw [herr]

/-- Witness for the amended C5 at a concrete backend: the normalized answer
`"Calendar."` is accepted as `"calendar"`. -/
theorem claim_C5_witness :
    calRouter.route (okChat (fun _ => "Calendar.")) "q" none
      = (if calRouter.agent_names.contains (routeCleanup "Calendar.")
         then routeCleanup "Calendar." else "general") :=
  (claim_C5_amended).1 (okChat (fun _ => "Calendar.")) calRouter "q" none "Calendar." rfl

/-- Claim C6: the message list of the first model invocation is exactly the
system prompt, then the last `min n 10` history messages in order (each
reduced to role and content, older ones dropped), then the query as the
final user turn; with the concrete 15-message history only `m5 ... m14`
appear. -/
theorem claim_C6 :
    (∀ (chat : ChatFun) (ag : Agent) (prompt : String) (hist : List ConvMessage),
       (ag.execute chat prompt (some hist)).2.head?
           = some (ag.firstRequest prompt (some hist))
       ∧ (ag.firstRequest prompt (some hist)).messages
           = ⟨"system", ag.build_system_prompt⟩ ::
             ((hist.drop (hist.length - 10)).map (fun m => ⟨m.role, m.content⟩)
               ++ [⟨"user", prompt⟩])
       ∧ (hist.drop (hist.length - 10)).length = min hist.length 10)
    ∧ (agPlain.firstRequest "q" (some hist15)).messages
        = ⟨"system", agPlain.build_system_prompt⟩ ::
          ((hist15.drop 5).map (fun m => ⟨m.role, m.content⟩) ++ [⟨"user", "q"⟩])
    ∧ (hist15.drop 5).map (fun m => (⟨m.role, m.content⟩ : ChatMessage))
        = (List.range 10).map (fun i => ⟨"user", "m" ++ toString (i + 5)⟩) := by
  refine ⟨?_, rfl, by decide⟩
  intro chat ag prompt hist
  refine ⟨execute_calls_head chat ag prompt (some hist), ?_, ?_⟩
  · cases hist with
    | nil => rfl
    | cons a t => rfl
  · rw [List.length_drop]
    omega

/-- Claim C3 (the code deviates on non-object extracted calls): whenever
every extracted call is a JSON object with a `"tool"` entry, a non-empty
extraction leads to a second model invocation whose input is the first-pass
message list plus the primary response as an assistant turn plus the
synthesis instruction over the ordered tool results, and whose text is
returned, while an empty extraction returns the primary text after a single
invocation; but on a primary response whose block parses to the JSON string
`"tool"`, one call is extracted and `Agent.execute` raises `AttributeError`
instead of synthesizing. -/
theorem claim_C3 :
    (∀ (g : ChatRequest → String) (ag : Agent) (prompt : String)
       (hist : Option (List ConvMessage)) (calls : List JVal),
       extract_tool_calls (g (ag.firstRequest prompt hist)) = Except.ok calls →
       (∀ c ∈ calls, wellFormedCall c = true) →
       (calls ≠ [] →
         ag.execute (okChat g) prompt hist
           = (Except.ok ⟨g (ag.synthRequest prompt hist (g (ag.firstRequest prompt hist))
                             (calls.map (execute_tool_wf ag))), calls.map callName⟩,
              [ag.firstRequest prompt hist,
               ag.synthRequest prompt hist (g (ag.firstRequest prompt hist))
                 (calls.map (execute_tool_wf ag))]))
       ∧ (calls = [] →
         ag.execute (okChat g) prompt hist
           = (Except.ok ⟨g (ag.firstRequest prompt hist), []⟩,
              [ag.firstRequest prompt hist])))
    ∧ extract_tool_calls strBlockText = Except.ok [JVal.str "tool"]
    ∧ agPlain.execute strBlockBackend "q" none
        = (Except.error "AttributeError: object has no attribute get",
           [agPlain.firstRequest "q" none]) := by
  refine ⟨?_, rfl, rfl⟩
  intro g ag prompt hist calls hx hwf
  exact ⟨fun hne => execute_ok_with_tools g ag prompt hist calls hx hne hwf,
         fun hnil => execute_ok_no_tools g ag prompt hist (hnil ▸ hx)⟩

/-- Witness for C3's good path at a concrete agent and backend: one
well-formed call is extracted, so the synthesis text is returned and both
requests are issued in order. -/
theorem claim_C3_witness :
    demoAgent.execute (okChat demoBackend) "write pls" none
      = (Except.ok ⟨demoBackend (demoAgent.synthRequest "write pls" none
                      (demoBackend (demoAgent.firstRequest "write pls" none))
                      ([callGood].map (execute_tool_wf demoAgent))),
                    [callGood].map callName⟩,
         [demoAgent.firstRequest "write pls" none,
          demoAgent.synthRequest "write pls" none
            (demoBackend (demoAgent.firstRequest "write pls" none))
            ([callGood].map (execute_tool_wf demoAgent))]) :=
  (claim_C3.1 demoBackend demoAgent "write pls" none [callGood] (by rfl)
    (fun c hc => by rw [List.mem_singleton.mp hc]; rfl)).1
      (List.cons_ne_nil callGood [])

/-- Whether `List.lookup` finds a key is determined by the key list alone. -/
theorem lookup_isSome_eq_contains {β : Type} (l : List (String × β)) (a : String) :
    (l.lookup a).isSome = (l.map Prod.fst).contains a := by
  induction l with
  | nil => rfl
  | cons kv t ih =>
    obtain ⟨k, v⟩ := kv
    by_cases hk : a = k
    · subst hk
      simp [List.lookup, List.contains_cons]
    · simp [List.lookup, List.contains_cons, beq_eq_false_iff_ne.mpr hk, ih,
        Ne.symm hk]

/-- Two registries with the same key list agree on `has_tool`. -/
theorem has_tool_congr (r1 r2 : ToolRegistry)
    (h : r1.tools.map Prod.fst = r2.tools.map Prod.fst) (s : String) :
    r1.has_tool s = r2.has_tool s := by
  unfold ToolRegistry.has_tool
  rw [lookup_isSome_eq_contains, lookup_isSome_eq_contains, h]

/-- Two registries with the same key list agree on the Python membership
test for arbitrary parsed values. -/
theorem memJ_congr (r1 r2 : ToolRegistry)
    (h : r1.tools.map Prod.fst = r2.tools.map Prod.fst) (tn : JVal) :
    r1.memJ tn = r2.memJ tn := by
  cases tn with
  | str s => simp [ToolRegistry.memJ, has_tool_congr r1 r2 h s]
  | null => rfl
  | bool b => rfl
  | num n => rfl
  | arr xs => rfl
  | obj o => rfl

/-- Claim C2: an extracted call whose tool name is unregistered, or
registered but absent from the agent's allow-list, produces a
`{"success": false, "error": ...}` result without invoking any tool (the
outcome is unchanged under any replacement of the registry's tool
functions), yet the loop of `Agent.execute` still records the call's
`"tool"` field in `tools_used` and its failure value among the ordered
results handed to the synthesis pass. -/
theorem claim_C2 :
    ∀ (ag : Agent) (kvs : List (String × JVal)) (tn : JVal),
      jGet kvs "tool" = some tn →
      (ag.tool_registry.memJ tn = Except.ok false
        ∨ ∃ s, tn = JVal.str s ∧ ag.tool_registry.has_tool s = true
            ∧ ag.tool_names.contains s = false) →
      ∃ msg, ag.execute_tool (JVal.obj kvs) = Except.ok (toolFailure msg)
        ∧ (∀ reg2 : ToolRegistry,
             reg2.tools.map Prod.fst = ag.tool_registry.tools.map Prod.fst →
             Agent.execute_tool
                 ⟨ag.name, ag.model, ag.description, ag.temperature, ag.tool_names, reg2⟩
                 (JVal.obj kvs)
               = Except.ok (toolFailure msg))
        ∧ (∀ (calls : List JVal) (i : Nat),
             (∀ c ∈ calls, wellFormedCall c = true) →
             calls[i]? = some (JVal.obj kvs) →
             ∃ used results, ag.run_tool_calls calls = Except.ok (used, results)
               ∧ used[i]? = some tn ∧ results[i]? = some (toolFailure msg)) := by
  intro ag kvs tn hg hbad
  have tail : ∀ msg : String,
      ag.execute_tool (JVal.obj kvs) = Except.ok (toolFailure msg) →
      ∀ (calls : List JVal) (i : Nat),
        (∀ c ∈ calls, wellFormedCall c = true) →
        calls[i]? = some (JVal.obj kvs) →
        ∃ used results, ag.run_tool_calls calls = Except.ok (used, results)
          ∧ used[i]? = some tn ∧ results[i]? = some (toolFailure msg) := by
    intro msg hself calls i hwf hcall
    refine ⟨calls.map callName, calls.map (execute_tool_wf ag),
      run_tool_calls_wf ag calls hwf, ?_, ?_⟩
    · rw [List.getElem?_map, hcall]
      simp [callName, hg]
    · rw [List.getElem?_map, hcall]
      simp [execute_tool_wf, hself]
  rcases hbad with hnf | ⟨s, hs, hreg, hnall⟩
  · have hexec : ∀ reg2 : ToolRegistry,
        reg2.tools.map Prod.fst = ag.tool_registry.tools.map Prod.fst →
        Agent.execute_tool
            ⟨ag.name, ag.model, ag.description, ag.temperature, ag.tool_names, reg2⟩
            (JVal.obj kvs)
          = Except.ok (toolFailure ("Tool " ++ pyStr tn ++ " not found")) := by
      intro reg2 hkeys
      simp only [Agent.execute_tool]
      rw [hg]
      simp only [Option.getD_some]
      rw [memJ_congr reg2 ag.tool_registry hkeys, hnf]
    have hself : ag.execute_tool (JVal.obj kvs)
        = Except.ok (toolFailure ("Tool " ++ pyStr tn ++ " not found")) := by
      have := hexec ag.tool_registry rfl
      exact this
    exact ⟨_, hself, hexec, tail _ hself⟩
  · subst hs
    have hexec : ∀ reg2 : ToolRegistry,
        reg2.tools.map Prod.fst = ag.tool_registry.tools.map Prod.fst →
        Agent.execute_tool
            ⟨ag.name, ag.model, ag.description, ag.temperature, ag.tool_names, reg2⟩
            (JVal.obj kvs)
          = Except.ok (toolFailure ("Tool " ++ s ++ " not available to this agent")) := by
      intro reg2 hkeys
      simp only [Agent.execute_tool]
      rw [hg]
      simp only [Option.getD_some, ToolRegistry.memJ]
      rw [has_tool_congr reg2 ag.tool_registry hkeys, hreg]
      dsimp only
      rw [if_neg (by rw [hnall]; exact Bool.false_ne_true)]
    have hself : ag.execute_tool (JVal.obj kvs)
        = Except.ok (toolFailure ("Tool " ++ s ++ " not available to this agent")) := by
      have := hexec ag.tool_registry rfl
      exact this
    exact ⟨_, hself, hexec, tail _ hself⟩

/-- Witness for C2 at the concrete agent: an unregistered tool name and a
registered-but-not-allowed tool name each yield a failure result. -/
theorem claim_C2_witness :
    (∃ msg, demoAgent.execute_tool callUnknown = Except.ok (toolFailure msg))
    ∧ (∃ msg, demoAgent.execute_tool callForbidden = Except.ok (toolFailure msg)) := by
  constructor
  · obtain ⟨msg, h1, _, _⟩ :=
      claim_C2 demoAgent [("tool", JVal.str "delete_file")] (JVal.str "delete_file")
        rfl (Or.inl rfl)
    exact ⟨msg, h1⟩
  · obtain ⟨msg, h1, _, _⟩ :=
      claim_C2 demoAgent [("tool", JVal.str "web_search")] (JVal.str "web_search")
        rfl (Or.inr ⟨"web_search", rfl, rfl, rfl⟩)
    exact ⟨msg, h1⟩

/-- Claim C8: a raised exception inside an allow-listed registered tool is
caught per call and converted to `{"success": false, "error": <message>}`;
on a list of well-formed calls the loop never raises and each call's result
is independent of its siblings; and `Agent.execute` returns normally
whenever every extracted call is well-formed. -/
theorem claim_C8 :
    (∀ (ag : Agent) (kvs : List (String × JVal)) (s e : String) (f : ToolFun),
       jGet kvs "tool" = some (JVal.str s) →
       ag.tool_registry.get_tool s = some f →
       ag.tool_names.contains s = true →
       f ((jGet kvs "params").getD (JVal.obj [])) = Except.error e →
       ag.execute_tool (JVal.obj kvs) = Except.ok (toolFailure e))
    ∧ (∀ (ag : Agent) (calls : List JVal),
       (∀ c ∈ calls, wellFormedCall c = true) →
       ag.run_tool_calls calls
         = Except.ok (calls.map callName, calls.map (execute_tool_wf ag)))
    ∧ (∀ (g : ChatRequest → String) (ag : Agent) (prompt : String)
         (hist : Option (List ConvMessage)) (calls : List JVal),
       extract_tool_calls (g (ag.firstRequest prompt hist)) = Except.ok calls →
       (∀ c ∈ calls, wellFormedCall c = true) →
       ∃ r, (ag.execute (okChat g) prompt hist).1 = Except.ok r) := by
  refine ⟨?_, run_tool_calls_wf, ?_⟩
  · intro ag kvs s e f hg hgt hall hf
    simp only [Agent.execute_tool]
    rw [hg]
    simp only [Option.getD_some, ToolRegistry.memJ, ToolRegistry.has_tool, hgt,
      Option.isSome_some, hall, if_true, hf]
    rw [show List.lookup s ag.tool_registry.tools = some f from hgt]
    rfl
  · intro g ag prompt hist calls hx hwf
    cases hc : calls with
    | nil =>
      subst hc
      rw [execute_ok_no_tools g ag prompt hist hx]
      exact ⟨_, rfl⟩
    | cons c rest =>
      rw [execute_ok_with_tools g ag prompt hist calls hx (by rw [hc]; simp) hwf]
      exact ⟨_, rfl⟩

/-- Witness for C8 at the concrete agent: the raising tool `boom` is
converted to a failure result, and a sibling well-formed call still runs. -/
theorem claim_C8_witness :
    demoAgent.execute_tool callBoom = Except.ok (toolFailure "disk full")
    ∧ demoAgent.run_tool_calls [callBoom, callGood]
        = Except.ok ([callBoom, callGood].map callName,
                     [callBoom, callGood].map (execute_tool_wf demoAgent)) :=
  ⟨claim_C8.1 demoAgent [("tool", JVal.str "boom")] "boom" "disk full"
      (fun _ => Except.error "disk full") rfl rfl rfl rfl,
   claim_C8.2.1 demoAgent [callBoom, callGood]
      (fun c hc => by
        rcases List.mem_cons.mp hc with h | h
        · rw [h]; rfl
        · rw [List.mem_singleton.mp h]; rfl)⟩

/-- On captures that parse to JSON objects or fail to parse, the extraction
loop agrees with the claim's description (order-preserving filter keeping
exactly the objects with a `"tool"` key, never raising). -/
theorem extractLoop_eq_filterMap (ms : List String)
    (h : ms.all objOrMalformed = true) :
    extractLoop ms
      = Except.ok (ms.filterMap (fun m =>
          match jsonLoads (pyStrip m) with
          | some (JVal.obj kvs) =>
            if kvs.any (fun kv => kv.1 = "tool") then some (JVal.obj kvs) else none
          | _ => none)) := by
  induction ms with
  | nil => rfl
  | cons m t ih =>
    rw [List.all_cons] at h
    obtain ⟨hm, ht⟩ := Bool.and_eq_true_iff.mp h
    simp only [extractLoop, List.filterMap_cons]
    rcases hj : jsonLoads (pyStrip m) with _ | v
    · exact ih ht
    · cases v with
      | obj kvs =>
        simp only [pyContainsTool]
        by_cases ha : kvs.any (fun kv => kv.1 = "tool")
        · simp [ha, ih ht]
        · simp [eq_false_of_ne_true ha, ih ht]
      | null => simp [objOrMalformed, hj] at hm
      | bool b => simp [objOrMalformed, hj] at hm
      | num n => simp [objOrMalformed, hj] at hm
      | str s => simp [objOrMalformed, hj] at hm
      | arr xs => simp [objOrMalformed, hj] at hm

/-- Claim C4 (the code deviates on valid-JSON non-object blocks): whenever
every fenced block parses to a JSON object or fails to parse,
`_extract_tool_calls` returns, in block order and without raising, exactly
the parsed objects carrying a `"tool"` key — in particular one well-formed
plus one malformed block yield exactly the well-formed call, and two
well-formed blocks keep their order; but a block whose body is the valid
JSON number `5` makes the extraction raise `TypeError` (only
`json.JSONDecodeError` is caught), and a block whose body is the JSON
string `"tool"` is kept although it is no object (Python `in` is a
substring test there). -/
theorem claim_C4 :
    (∀ text : String, (findBlocks text).all objOrMalformed = true →
       extract_tool_calls text = Except.ok (claimExtractC4 text))
    ∧ extract_tool_calls goodBadText
        = Except.ok [JVal.obj [("tool", JVal.str "write_file"),
                               ("params", JVal.obj [("file_path", JVal.str "a.txt")])]]
    ∧ extract_tool_calls orderedText
        = Except.ok [JVal.obj [("tool", JVal.str "a")],
                     JVal.obj [("tool", JVal.str "b")]]
    ∧ extract_tool_calls numBlockText
        = Except.error "TypeError: argument of type is not iterable"
    ∧ claimExtractC4 numBlockText = []
    ∧ extract_tool_calls strBlockText = Except.ok [JVal.str "tool"]
    ∧ claimExtractC4 strBlockText = [] :=
  ⟨fun text hall => extractLoop_eq_filterMap (findBlocks text) hall,
   rfl, rfl, rfl, rfl, rfl, rfl⟩

/-- Witness for C4's conforming case: on the one-good-one-malformed input
all blocks are objects-or-malformed, and the extraction equals the claim's
filter. -/
theorem claim_C4_witness :
    (findBlocks goodBadText).all objOrMalformed = true
    ∧ extract_tool_calls goodBadText = Except.ok (claimExtractC4 goodBadText) :=
  ⟨rfl, claim_C4.1 goodBadText rfl⟩

end AgentSys

